import Mathlib

/-!
Verification development for the cbm-admin blog administration frontend.

The definitions below are shallow embeddings of the TypeScript source:
strings are Lean `String`s manipulated through their character lists,
the JavaScript string helpers (`trim`, `toLowerCase`, regex replaces)
are modelled character-wise, React state records become Lean structures,
and event handlers become pure state-transition functions.
-/

namespace CbmAdmin

/-- Model of JavaScript `String.prototype.trim`: drop whitespace from both
ends of the character list. -/
def trimWs (l : List Char) : List Char :=
  ((l.dropWhile Char.isWhitespace).reverse.dropWhile Char.isWhitespace).reverse

/-- Model of JavaScript `s.trim()` on packed strings. -/
def jsTrim (s : String) : String :=
  String.mk (trimWs s.data)

/-- Model of JavaScript `s.toLowerCase()` (character-wise lowering). -/
def jsToLower (s : String) : String :=
  String.mk (s.data.map Char.toLower)

/-- Characters kept by the regex replace `/[^a-z0-9\s-]/g → ''` in
`generateSlug` (BlogForm.tsx line 70): lowercase latin letters, digits,
whitespace, and the hyphen. -/
def jsKeepChar (c : Char) : Bool :=
  (decide ('a' ≤ c) && decide (c ≤ 'z')) ||
  (decide ('0' ≤ c) && decide (c ≤ '9')) ||
  c.isWhitespace || (c == '-')

/-- Worker for a global regex replace of the form `/X+/g → r`: every maximal
run of characters satisfying `p` is replaced by the single character `r`.
The flag records whether the previous character was part of a run. -/
def collapseAux (p : Char → Bool) (r : Char) : Bool → List Char → List Char
  | _, [] => []
  | inRun, c :: cs =>
    if p c then
      (if inRun then collapseAux p r true cs else r :: collapseAux p r true cs)
    else
      c :: collapseAux p r false cs

/-- Global regex replace `/X+/g → r` where `p` recognises `X`. -/
def collapseRuns (p : Char → Bool) (r : Char) (l : List Char) : List Char :=
  collapseAux p r false l

/-- Model of `generateSlug` (BlogForm.tsx lines 67-74): lowercase, strip
characters outside `[a-z0-9\s-]`, trim, collapse whitespace runs to `-`,
collapse hyphen runs to a single `-`. -/
def generateSlug (title : String) : String :=
  String.mk (collapseRuns (fun c => c == '-') '-'
    (collapseRuns Char.isWhitespace '-'
      (trimWs ((title.data.map Char.toLower).filter jsKeepChar))))

/-- A character allowed in a well-formed slug: `[a-z0-9-]`. -/
def validSlugChar (c : Char) : Bool :=
  (decide ('a' ≤ c) && decide (c ≤ 'z')) ||
  (decide ('0' ≤ c) && decide (c ≤ '9')) || (c == '-')

/-- Decidable check that a character list has no two adjacent hyphens. -/
def noDoubleDashB : List Char → Bool
  | [] => true
  | [_] => true
  | a :: b :: rest => !((a == '-') && (b == '-')) && noDoubleDashB (b :: rest)

/-- A slug is well formed when every character is in `[a-z0-9-]` (hence
lowercase) and no two hyphens are adjacent. -/
def slugWellFormed (l : List Char) : Bool :=
  l.all validSlugChar && noDoubleDashB l

lemma mem_of_mem_dropWhile {q : Char → Bool} :
    ∀ {l : List Char} {c : Char}, c ∈ l.dropWhile q → c ∈ l := by
  intro l
  induction l with
  | nil => intro c h; simp at h
  | cons a as ih =>
    intro c h
    by_cases ha : q a
    · rw [List.dropWhile_cons_of_pos ha] at h
      exact List.mem_cons_of_mem a (ih h)
    · rw [List.dropWhile_cons_of_neg ha] at h
      exact h

lemma mem_of_mem_trimWs {l : List Char} {c : Char} (h : c ∈ trimWs l) : c ∈ l := by
  unfold trimWs at h
  rw [List.mem_reverse] at h
  have h1 := mem_of_mem_dropWhile h
  rw [List.mem_reverse] at h1
  exact mem_of_mem_dropWhile h1

lemma mem_collapseAux {p : Char → Bool} {r : Char} :
    ∀ {cs : List Char} {flag : Bool} {c : Char},
      c ∈ collapseAux p r flag cs → c = r ∨ (c ∈ cs ∧ p c = false) := by
  intro cs
  induction cs with
  | nil => intro flag c h; simp [collapseAux] at h
  | cons a as ih =>
    intro flag c h
    by_cases hp : p a
    · cases flag with
      | false =>
        simp only [collapseAux, hp, if_true, Bool.false_eq_true, if_false,
          List.mem_cons] at h
        rcases h with h | h
        · exact Or.inl h
        · rcases ih h with h' | h'
          · exact Or.inl h'
          · exact Or.inr ⟨List.mem_cons_of_mem a h'.1, h'.2⟩
      | true =>
        simp only [collapseAux, hp, if_true] at h
        rcases ih h with h' | h'
        · exact Or.inl h'
        · exact Or.inr ⟨List.mem_cons_of_mem a h'.1, h'.2⟩
    · simp only [collapseAux, hp, Bool.false_eq_true, if_false, List.mem_cons] at h
      rcases h with h | h
      · subst h
        exact Or.inr ⟨List.mem_cons_self _ _, by simpa using hp⟩
      · rcases ih h with h' | h'
        · exact Or.inl h'
        · exact Or.inr ⟨List.mem_cons_of_mem a h'.1, h'.2⟩

lemma validSlugChar_dash : validSlugChar '-' = true := by decide

lemma validSlugChar_of_keep {c : Char} (hk : jsKeepChar c = true)
    (hw : c.isWhitespace = false) : validSlugChar c = true := by
  unfold jsKeepChar at hk
  unfold validSlugChar
  simp only [Bool.or_eq_true, Bool.and_eq_true] at hk ⊢
  rcases hk with ((h | h) | h) | h
  · exact Or.inl (Or.inl h)
  · exact Or.inl (Or.inr h)
  · rw [hw] at h; exact absurd h (by simp)
  · exact Or.inr h

lemma mem_generateSlug_valid {t : String} {c : Char}
    (h : c ∈ (generateSlug t).data) : validSlugChar c = true := by
  unfold generateSlug at h
  simp only [collapseRuns] at h
  rcases mem_collapseAux h with h1 | ⟨h1, _⟩
  · subst h1; exact validSlugChar_dash
  rcases mem_collapseAux h1 with h2 | ⟨h2, hw⟩
  · subst h2; exact validSlugChar_dash
  have h3 := mem_of_mem_trimWs h2
  rw [List.mem_filter] at h3
  exact validSlugChar_of_keep h3.2 hw

lemma collapseAux_dash_head :
    ∀ (cs : List Char) (c : Char) (cs' : List Char),
      collapseAux (fun x => x == '-') '-' true cs = c :: cs' → ¬(c == '-') = true := by
  intro cs
  induction cs with
  | nil => intro c cs' h; simp [collapseAux] at h
  | cons a as ih =>
    intro c cs' h
    by_cases hp : (a == '-') = true
    · simp only [collapseAux, hp, if_true] at h
      exact ih c cs' h
    · simp only [collapseAux, hp, Bool.false_eq_true, if_false, List.cons.injEq] at h
      rcases h with ⟨h1, _⟩
      subst h1
      simpa using hp

lemma noDoubleDashB_collapseAux :
    ∀ (cs : List Char) (flag : Bool),
      noDoubleDashB (collapseAux (fun x => x == '-') '-' flag cs) = true := by
  intro cs
  induction cs with
  | nil => intro flag; simp [collapseAux, noDoubleDashB]
  | cons a as ih =>
    intro flag
    by_cases hp : (a == '-') = true
    · cases flag with
      | false =>
        simp only [collapseAux, hp, if_true, Bool.false_eq_true, if_false]
        rcases htail : collapseAux (fun x => x == '-') '-' true as with _ | ⟨c, cs'⟩
        · simp [noDoubleDashB]
        · have hc := collapseAux_dash_head as c cs' htail
          have := ih true
          rw [htail] at this
          simp only [noDoubleDashB, Bool.and_eq_true, Bool.not_eq_true']
          refine ⟨?_, this⟩
          simp only [Bool.and_eq_false_iff]
          right
          simpa using hc
      | true =>
        simp only [collapseAux, hp, if_true]
        exact ih true
    · simp only [collapseAux, hp, Bool.false_eq_true, if_false]
      rcases htail : collapseAux (fun x => x == '-') '-' false as with _ | ⟨c, cs'⟩
      · simp [noDoubleDashB]
      · have := ih false
        rw [htail] at this
        simp only [noDoubleDashB, Bool.and_eq_true, Bool.not_eq_true']
        refine ⟨?_, this⟩
        simp only [Bool.and_eq_false_iff]
        left
        simpa using hp

/-- C1 (amended part): every slug emitted by `generateSlug` uses only
characters from `[a-z0-9-]` (so it is entirely lowercase) and never
contains two adjacent hyphens. Leading and trailing hyphens, however,
survive (see the counterexample), because JavaScript `trim` removes only
whitespace and runs before the hyphen-collapsing replace. -/
theorem generateSlug_wellFormed (t : String) :
    slugWellFormed (generateSlug t).data = true := by
  unfold slugWellFormed
  rw [Bool.and_eq_true]
  refine ⟨?_, ?_⟩
  · rw [List.all_eq_true]
    intro c hc
    exact mem_generateSlug_valid hc
  · show noDoubleDashB (generateSlug t).data = true
    unfold generateSlug collapseRuns
    exact noDoubleDashB_collapseAux _ false

/-- C1 (counterexample): the claim "no leading hyphen, no trailing hyphen"
is false. On the title `"-a-"` the generated slug is `"-a-"` itself, whose
first and last characters are hyphens: `trim()` strips only whitespace and
the later replaces collapse hyphen runs without deleting boundary hyphens. -/
theorem generateSlug_claim_counterexample :
    generateSlug "-a-" = "-a-" ∧
    (generateSlug "-a-").data.head? = some '-' ∧
    (generateSlug "-a-").data.getLast? = some '-' := by
  refine ⟨by decide, by decide, by decide⟩

/-- One entry of the `images` array: `{url, alt, caption, order}`. -/
structure BlogImage where
  url : String
  alt : String
  caption : String
  order : Nat
deriving DecidableEq

/-- The form's draft record (the `CreateBlogData` shape held in `formData`). -/
structure CreateBlogData where
  title : String
  excerpt : String
  content : String
  tags : List String
  featuredImage : String
  images : List BlogImage
  isPublished : Bool
  isFeatured : Bool
  metaDescription : String
  slug : String
deriving DecidableEq

/-- A staged image file reference (the `File` object held in
`featuredImageFile`); only its identity matters to the claims. -/
structure FileRef where
  name : String
deriving DecidableEq

/-- A remote `Blog` entity. Fields the component reads through `||` / `??`
guards are `Option`s, so that an absent field and a present one are
distinguished exactly where the source distinguishes them. -/
structure Blog where
  id : String
  title : Option String
  excerpt : Option String
  content : Option String
  tags : Option (List String)
  featuredImage : Option String
  images : Option (List BlogImage)
  isPublished : Option Bool
  isFeatured : Option Bool
  metaDescription : Option String
  slug : Option String
  publishedAt : String
  viewCount : Nat
  readingTime : Nat
deriving DecidableEq

/-- The transient image-entry sub-form (`imageInput` state). -/
structure ImageInput where
  url : String
  alt : String
  caption : String
deriving DecidableEq

/-- The BlogForm component's local state: the draft record plus the
transient tag/image inputs, the validation-error mapping, the staged file
and the preview string. -/
structure FormState where
  formData : CreateBlogData
  tagInput : String
  imageInput : ImageInput
  errors : List (String × String)
  featuredImageFile : Option FileRef
  featuredImagePreview : String
deriving DecidableEq

/-- The initial/create-mode draft record (BlogForm.tsx lines 12-23 and
49-60): everything empty, `isPublished := true`, `isFeatured := false`. -/
def emptyFormData : CreateBlogData :=
  { title := "", excerpt := "", content := "", tags := [], featuredImage := "",
    images := [], isPublished := true, isFeatured := false,
    metaDescription := "", slug := "" }

/-- The draft record computed from an existing blog in the effect
(BlogForm.tsx lines 33-44): `||`-defaulted strings and lists, and
`??`-defaulted booleans. -/
def initialFormData (b : Blog) : CreateBlogData :=
  { title := b.title.getD "", excerpt := b.excerpt.getD "",
    content := b.content.getD "", tags := b.tags.getD [],
    featuredImage := b.featuredImage.getD "", images := b.images.getD [],
    isPublished := b.isPublished.getD true, isFeatured := b.isFeatured.getD false,
    metaDescription := b.metaDescription.getD "", slug := b.slug.getD "" }

/-- The `useEffect` body keyed on `blog` (BlogForm.tsx lines 31-65): on
every change of the supplied entity it rebuilds `formData` and the preview,
clears the staged file and empties the error mapping. The transient
`tagInput`/`imageInput` sub-forms are not touched by the effect. -/
def blogEffect (b? : Option Blog) (s : FormState) : FormState :=
  match b? with
  | some b =>
    { s with formData := initialFormData b,
             featuredImagePreview := b.featuredImage.getD "",
             featuredImageFile := none,
             errors := [] }
  | none =>
    { s with formData := emptyFormData,
             featuredImagePreview := "",
             featuredImageFile := none,
             errors := [] }

/-- The string-valued (non-checkbox) input fields reachable through
`handleInputChange`'s `[name]: value` update. -/
inductive StrField
  | title
  | excerpt
  | content
  | metaDescription
  | featuredImage
  | slug
deriving DecidableEq

/-- Dynamic-key update `{...prev, [name]: value}` for a string field. -/
def setStrField (fd : CreateBlogData) (f : StrField) (v : String) : CreateBlogData :=
  match f with
  | .title => { fd with title := v }
  | .excerpt => { fd with excerpt := v }
  | .content => { fd with content := v }
  | .metaDescription => { fd with metaDescription := v }
  | .featuredImage => { fd with featuredImage := v }
  | .slug => { fd with slug := v }

/-- The non-checkbox branch of `handleInputChange` (BlogForm.tsx lines
81-86) acting on the draft record: set the named field, and when the field
is `title` and (`!blog || !formData.slug?.trim()`) also regenerate the
slug from the new value. The companion error-entry blanking on line 87
touches the separate `errors` slice and leaves the draft unchanged. -/
def handleInputChange (blogPresent : Bool) (fd : CreateBlogData)
    (f : StrField) (v : String) : CreateBlogData :=
  let fd1 := setStrField fd f v
  if f = StrField.title ∧ (blogPresent = false ∨ jsTrim fd.slug = "") then
    { fd1 with slug := generateSlug v }
  else fd1

/-- The `handleAddTag` handler (BlogForm.tsx lines 90-98): when the trimmed
input is non-empty and its lowercased form is not already an exact member
of `tags`, append it and clear the tag input; otherwise do nothing. The
result pairs the new draft record with the new tag-input value. -/
def handleAddTag (ti : String) (fd : CreateBlogData) : CreateBlogData × String :=
  if !(jsTrim ti == "") && !(fd.tags.contains (jsToLower (jsTrim ti))) then
    ({ fd with tags := fd.tags ++ [jsToLower (jsTrim ti)] }, "")
  else
    (fd, ti)

/-- The `handleRemoveTag` handler (BlogForm.tsx lines 100-105): filter the
tag list by exact inequality with the removed tag. -/
def handleRemoveTag (tagToRemove : String) (fd : CreateBlogData) : CreateBlogData :=
  { fd with tags := fd.tags.filter (fun tag => !(tag == tagToRemove)) }

/-- The `handleAddImage` handler (BlogForm.tsx lines 107-120): when the
image-input URL is non-empty after trimming, append a `BlogImage` whose
`order` is the current list length and reset the image sub-form. -/
def handleAddImage (input : ImageInput) (fd : CreateBlogData) :
    CreateBlogData × ImageInput :=
  if !(jsTrim input.url == "") then
    ({ fd with images := fd.images ++
        [{ url := jsTrim input.url, alt := jsTrim input.alt,
           caption := jsTrim input.caption, order := fd.images.length }] },
     { url := "", alt := "", caption := "" })
  else
    (fd, input)

/-- JavaScript `array.filter((_, i) => i !== target)`: keep every element
whose running index (starting at `j`) differs from `target`. -/
def filterIdx (target : Nat) : Nat → List BlogImage → List BlogImage
  | _, [] => []
  | j, x :: xs =>
    if j = target then filterIdx target (j + 1) xs
    else x :: filterIdx target (j + 1) xs

/-- The `handleRemoveImage` handler (BlogForm.tsx lines 122-127): drop the
entry at the given positional index. -/
def handleRemoveImage (index : Nat) (fd : CreateBlogData) : CreateBlogData :=
  { fd with images := filterIdx index 0 fd.images }

/-- Truthiness of `!!(blog && blog.featuredImage)` in `validateForm`. -/
def hasExistingImage (b? : Option Blog) : Bool :=
  match b? with
  | some b => !((b.featuredImage.getD "") == "")
  | none => false

/-- The `validateForm` function (BlogForm.tsx lines 156-175): the error
record built from the presence checks, as an ordered key-message list
(one entry per distinct key, in the insertion order of the source). -/
def validateForm (fd : CreateBlogData) (file : Option FileRef)
    (b? : Option Blog) : List (String × String) :=
  let hasNewFile := file.isSome
  let hasImageUrl := !(jsTrim fd.featuredImage == "")
  (if jsTrim fd.title == "" then [("title", "Title is required")] else []) ++
  (if jsTrim fd.excerpt == "" then [("excerpt", "Excerpt is required")] else []) ++
  (if jsTrim fd.content == "" then [("content", "Content is required")] else []) ++
  (if !hasNewFile && !hasImageUrl && !hasExistingImage b? then
    [("featuredImage", "Featured image is required")] else []) ++
  (if jsTrim fd.slug == "" then [("slug", "Slug is required")] else [])

/-- Observable outcome of one `handleSubmit` run. -/
inductive SubmitOutcome
  | skipped
  | blockedInvalid
  | savedOk
  | saveFailedAlert (msg : String)
deriving DecidableEq

/-- The `handleSubmit` handler (BlogForm.tsx lines 177-198) as a pure
transition: it returns the new form state, the observable outcome, and the
argument pair passed to `onSave` (`none` when the callback was not
invoked). The save callback is modelled by its result, an `Except` whose
error carries the rejection message; the `catch` block corresponds to the
`Except.error` branch, which produces the blocking alert and no further
state change. -/
def handleSubmit (isLoading : Bool) (b? : Option Blog) (st : FormState)
    (onSave : CreateBlogData → Option FileRef → Except String Unit) :
    FormState × SubmitOutcome × Option (CreateBlogData × Option FileRef) :=
  if isLoading then (st, .skipped, none)
  else
    let newErrors := validateForm st.formData st.featuredImageFile b?
    let st1 := { st with errors := newErrors }
    if !(newErrors.length == 0) then
      (st1, .blockedInvalid, none)
    else
      let submitData := { st.formData with
        featuredImage :=
          if st.featuredImageFile.isSome then "" else st.formData.featuredImage }
      match onSave submitData st.featuredImageFile with
      | .ok _ => (st1, .savedOk, some (submitData, st.featuredImageFile))
      | .error msg =>
        (st1, .saveFailedAlert ("Error saving blog: " ++ msg),
         some (submitData, st.featuredImageFile))

/-- The projection of the Blogs controller state relevant to the delete
flow: the confirmation-held identifier (`showDeleteConfirm`) and the log
of identifiers for which `blogService.deleteBlog` has been called. -/
structure ControllerState where
  showDeleteConfirm : Option String
  deletedCalls : List String
deriving DecidableEq

/-- Public interactions of the Blogs controller that can touch the delete
flow. `requestDelete` is the detail-view button
`setShowDeleteConfirm(selectedBlog._id)` (and the analogous list-row
button). `cancelDelete` and `confirmDelete` are modelled from the spec:
the confirmation modal is elided from the source (`// Keep your ... modal
logic as is`), and per the spec the delete call "requires an explicit
confirmation step (tracked as a held identifier) before the actual delete
call fires". `confirmDelete` runs `handleDeleteBlog` on the held
identifier with the service result given by `serviceOk`; its body follows
the source (lines 92-100): call the service, on success clear the
confirmation, on failure only set the error message. `otherInteraction`
stands for every other handler, none of which reads or writes
`showDeleteConfirm` or calls `deleteBlog`. -/
inductive CtrlEvent
  | requestDelete (id : String)
  | cancelDelete
  | confirmDelete (serviceOk : Bool)
  | otherInteraction
deriving DecidableEq

/-- One controller transition on the delete-flow projection. -/
def ctrlStep (s : ControllerState) : CtrlEvent → ControllerState
  | .requestDelete i => { s with showDeleteConfirm := some i }
  | .cancelDelete => { s with showDeleteConfirm := none }
  | .confirmDelete ok =>
    match s.showDeleteConfirm with
    | some i =>
      { showDeleteConfirm := if ok then none else some i,
        deletedCalls := s.deletedCalls ++ [i] }
    | none => s
  | .otherInteraction => s

/-- The controller's initial state: no confirmation held, no delete calls. -/
def initCtrl : ControllerState :=
  { showDeleteConfirm := none, deletedCalls := [] }

/-- Run a sequence of public interactions from the initial state. -/
def runCtrl (evs : List CtrlEvent) : ControllerState :=
  evs.foldl ctrlStep initCtrl

/-- The request's header container: either an `AxiosHeaders` instance
(which exposes a `set` method) or a plain object used as a mapping — the
two cases the interceptor distinguishes with
`typeof config.headers.set === 'function'`. -/
inductive HeaderBag
  | axiosHeaders (entries : List (String × String))
  | plainMap (entries : List (String × String))
deriving DecidableEq

/-- The key-value entries of a header container. -/
def HeaderBag.entries : HeaderBag → List (String × String)
  | .axiosHeaders es => es
  | .plainMap es => es

/-- An outgoing request configuration: a URL and an optional header
container (the interceptor guards with `config.headers || {}`). -/
structure RequestConfig where
  url : String
  headers : Option HeaderBag
deriving DecidableEq

/-- Assignment of a header key: both `AxiosHeaders.set(k, v)` and the
plain `headers[k] = v` overwrite an existing entry for the key and
otherwise add one. -/
def setEntry (k v : String) (es : List (String × String)) :
    List (String × String) :=
  if es.any (fun p => decide (p.1 = k)) then
    es.map (fun p => if p.1 = k then (k, v) else p)
  else
    es ++ [(k, v)]

/-- Read a header value: the entry for the key, if any (JavaScript object
property read). -/
def lookupEntry (k : String) : List (String × String) → Option String
  | [] => none
  | (k1, v1) :: rest => if k1 = k then some v1 else lookupEntry k rest

/-- Read a header from a request configuration. -/
def getHeader (c : RequestConfig) (k : String) : Option String :=
  match c.headers with
  | some b => lookupEntry k b.entries
  | none => none

/-- The request interceptor (`api.interceptors.request.use`, lines
337-354 of the service file): with a token in ambient storage, ensure the
header container exists and set `Authorization: Bearer <token>` through
whichever mutation path the container supports; with no token, return the
configuration unchanged. -/
def requestInterceptor (token : Option String) (c : RequestConfig) :
    RequestConfig :=
  match token with
  | none => c
  | some t =>
    let bag := c.headers.getD (HeaderBag.plainMap [])
    let authValue := "Bearer " ++ t
    let bag' :=
      match bag with
      | HeaderBag.axiosHeaders es =>
          HeaderBag.axiosHeaders (setEntry "Authorization" authValue es)
      | HeaderBag.plainMap es =>
          HeaderBag.plainMap (setEntry "Authorization" authValue es)
    { c with headers := some bag' }

/-- A draft state whose fields satisfy every validation rule (used to
instantiate theorems with hypotheses at a concrete input). -/
def validSample : FormState :=
  { formData :=
      { emptyFormData with
        title := "t",
        excerpt := "e",
        content := "c",
        slug := "s",
        featuredImage := "http://x/img.png" },
    tagInput := "", imageInput := { url := "", alt := "", caption := "" },
    errors := [], featuredImageFile := none, featuredImagePreview := "" }

/-- The pristine create-mode state: every field empty, nothing staged. -/
def emptySample : FormState :=
  { formData := emptyFormData, tagInput := "",
    imageInput := { url := "", alt := "", caption := "" },
    errors := [], featuredImageFile := none, featuredImagePreview := "" }

/-- A save callback that always resolves. -/
def okSave : CreateBlogData → Option FileRef → Except String Unit :=
  fun _ _ => Except.ok ()

/-- A save callback that always rejects with the message `boom`. -/
def boomSave : CreateBlogData → Option FileRef → Except String Unit :=
  fun _ _ => Except.error "boom"

lemma handleSubmit_state_eq (b? : Option Blog) (st : FormState)
    (sv : CreateBlogData → Option FileRef → Except String Unit) :
    (handleSubmit false b? st sv).1 =
      { st with errors := validateForm st.formData st.featuredImageFile b? } := by
  simp only [handleSubmit, Bool.false_eq_true, if_false]
  split
  · rfl
  · split <;> rfl

lemma handleSubmit_call_eq (b? : Option Blog) (st : FormState)
    (sv : CreateBlogData → Option FileRef → Except String Unit)
    (hv : validateForm st.formData st.featuredImageFile b? = []) :
    (handleSubmit false b? st sv).2.2 =
      some ({ st.formData with
        featuredImage :=
          if st.featuredImageFile.isSome then "" else st.formData.featuredImage },
        st.featuredImageFile) := by
  simp only [handleSubmit, Bool.false_eq_true, if_false, hv, List.length_nil]
  split
  · simp_all
  · split <;> rfl

/-- C2: with a successfully validated draft, `handleSubmit` passes the
draft record to the save callback unchanged except that `featuredImage`
is cleared to the empty string exactly when a file is staged, and the
second argument is the staged file (`none` when nothing is staged). -/
theorem handleSubmit_payload_spec (b? : Option Blog) (st : FormState)
    (sv : CreateBlogData → Option FileRef → Except String Unit)
    (hv : validateForm st.formData st.featuredImageFile b? = []) :
    (st.featuredImageFile = none →
      (handleSubmit false b? st sv).2.2 = some (st.formData, none)) ∧
    (∀ f, st.featuredImageFile = some f →
      (handleSubmit false b? st sv).2.2 =
        some ({ st.formData with featuredImage := "" }, some f)) := by
  constructor
  · intro hf
    rw [handleSubmit_call_eq b? st sv hv, hf]
    simp
  · intro f hf
    rw [handleSubmit_call_eq b? st sv hv, hf]
    simp

/-- Witness for C2: a concrete valid draft with no staged file reaches the
callback with `featuredImage` preserved. -/
theorem handleSubmit_payload_witness :
    (handleSubmit false none validSample okSave).2.2 =
      some (validSample.formData, none) :=
  (handleSubmit_payload_spec none validSample okSave (by decide)).1 rfl

/-- C3: submitting with `title`, `excerpt`, `content`, `slug` and
`featuredImage` all empty, no staged file and no pre-existing image on the
edited entity produces the validation-error mapping with exactly the five
keys `title`, `excerpt`, `content`, `featuredImage`, `slug`, and the save
callback is not invoked (`handleSubmit` blocks with the alert outcome). -/
theorem validateForm_allEmpty_spec (b? : Option Blog) (st : FormState)
    (sv : CreateBlogData → Option FileRef → Except String Unit)
    (h1 : st.formData.title = "") (h2 : st.formData.excerpt = "")
    (h3 : st.formData.content = "") (h4 : st.formData.slug = "")
    (h5 : st.formData.featuredImage = "") (h6 : st.featuredImageFile = none)
    (h7 : hasExistingImage b? = false) :
    (validateForm st.formData st.featuredImageFile b?).map Prod.fst =
      ["title", "excerpt", "content", "featuredImage", "slug"] ∧
    (handleSubmit false b? st sv).2.1 = SubmitOutcome.blockedInvalid ∧
    (handleSubmit false b? st sv).2.2 = none := by
  have hv : validateForm st.formData st.featuredImageFile b? =
      [("title", "Title is required"), ("excerpt", "Excerpt is required"),
       ("content", "Content is required"),
       ("featuredImage", "Featured image is required"),
       ("slug", "Slug is required")] := by
    unfold validateForm
    rw [h1, h2, h3, h4, h5, h6, h7]
    decide
  refine ⟨by rw [hv]; rfl, ?_, ?_⟩
  · simp only [handleSubmit, Bool.false_eq_true, if_false, hv]
    rfl
  · simp only [handleSubmit, Bool.false_eq_true, if_false, hv]
    rfl

/-- Witness for C3: the pristine create-mode state blocks with the five
errors. -/
theorem validateForm_allEmpty_witness :
    (validateForm emptySample.formData emptySample.featuredImageFile none).map
        Prod.fst =
      ["title", "excerpt", "content", "featuredImage", "slug"] ∧
    (handleSubmit false none emptySample okSave).2.1 =
      SubmitOutcome.blockedInvalid ∧
    (handleSubmit false none emptySample okSave).2.2 = none :=
  validateForm_allEmpty_spec none emptySample okSave rfl rfl rfl rfl rfl rfl rfl

/-- C4: every run of the entity effect fully resets the draft state — the
resulting draft record and preview depend only on the new entity (not on
the prior state), the staged file is cleared, the error mapping becomes
empty, and the record equals the one rebuilt from the entity's fields (or
the create-mode defaults when no entity is supplied). -/
theorem blogEffect_fullReset (b? : Option Blog) (s s' : FormState) :
    (blogEffect b? s).formData = (blogEffect b? s').formData ∧
    (blogEffect b? s).featuredImagePreview =
      (blogEffect b? s').featuredImagePreview ∧
    (blogEffect b? s).featuredImageFile = none ∧
    (blogEffect b? s).errors = [] ∧
    (blogEffect b? s).formData =
      (match b? with
       | some b => initialFormData b
       | none => emptyFormData) ∧
    (blogEffect b? s).featuredImagePreview =
      (match b? with
       | some b => b.featuredImage.getD ""
       | none => "") := by
  cases b? <;> simp [blogEffect]

/-- C5 (counterexample): the claim that changes to non-`title` fields
never modify the slug fails for the `slug` field itself — editing the slug
input overwrites the stored slug with the typed value. -/
theorem handleInputChange_claim_counterexample :
    (handleInputChange false { emptyFormData with slug := "a" }
        StrField.slug "b").slug = "b" ∧
    ({ emptyFormData with slug := "a" } : CreateBlogData).slug = "a" :=
  ⟨by decide, by decide⟩

/-- C5 (amended): a `title` change regenerates the slug from the new value
unless an entity is being edited and the current slug is non-empty after
trimming (in which case the slug is untouched); a change to any
non-checkbox field other than `title` and `slug` leaves the slug
unchanged; a change to the `slug` field stores the typed value. -/
theorem handleInputChange_slug_spec (bp : Bool) (fd : CreateBlogData)
    (f : StrField) (v : String) :
    (f = StrField.title → (bp = false ∨ jsTrim fd.slug = "") →
      (handleInputChange bp fd f v).slug = generateSlug v) ∧
    (f = StrField.title → bp = true → jsTrim fd.slug ≠ "" →
      (handleInputChange bp fd f v).slug = fd.slug) ∧
    (f ≠ StrField.title → f ≠ StrField.slug →
      (handleInputChange bp fd f v).slug = fd.slug) ∧
    (f = StrField.slug → (handleInputChange bp fd f v).slug = v) := by
  refine ⟨?_, ?_, ?_, ?_⟩
  · intro hf hc
    subst hf
    rw [handleInputChange, if_pos ⟨rfl, hc⟩]
  · intro hf hb hs
    subst hf hb
    rw [handleInputChange, if_neg]
    · simp [setStrField]
    · rintro ⟨-, h | h⟩
      · exact absurd h (by simp)
      · exact hs h
  · intro hf hs
    cases f <;> simp_all [handleInputChange, setStrField]
  · intro hf
    subst hf
    rw [handleInputChange, if_neg]
    · simp [setStrField]
    · rintro ⟨h, -⟩
      exact absurd h (by simp)

/-- Witness for C5: in create mode a title change regenerates the slug. -/
theorem handleInputChange_slug_witness :
    (handleInputChange false emptyFormData StrField.title "A B").slug =
      generateSlug "A B" :=
  (handleInputChange_slug_spec false emptyFormData StrField.title "A B").1
    rfl (Or.inl rfl)

/-- C6 (counterexample): the duplicate check compares the lowercased input
against the tag set exactly, not case-insensitively, so with tags `["A"]`
the input `"A"` (case-insensitively present) is still appended as `"a"`;
and an all-whitespace input is a no-op rather than an append. -/
theorem handleAddTag_claim_counterexample :
    (handleAddTag "A" { emptyFormData with tags := ["A"] }).1.tags =
      ["A", "a"] ∧
    (handleAddTag " " emptyFormData).1.tags = [] :=
  ⟨by decide, by decide⟩

/-- C6 (amended): if the trimmed input is empty, or the trimmed lowercased
input is already an exact member of the tag set, `handleAddTag` changes
nothing; otherwise it appends the trimmed lowercased input and clears the
tag input. In particular adding the same input twice leaves the tag set
identical to adding it once. -/
theorem handleAddTag_spec (ti : String) (fd : CreateBlogData) :
    (jsTrim ti = "" → handleAddTag ti fd = (fd, ti)) ∧
    (fd.tags.contains (jsToLower (jsTrim ti)) = true →
      handleAddTag ti fd = (fd, ti)) ∧
    (jsTrim ti ≠ "" → fd.tags.contains (jsToLower (jsTrim ti)) = false →
      handleAddTag ti fd =
        ({ fd with tags := fd.tags ++ [jsToLower (jsTrim ti)] }, "")) ∧
    (handleAddTag ti (handleAddTag ti fd).1).1.tags =
      (handleAddTag ti fd).1.tags := by
  refine ⟨?_, ?_, ?_, ?_⟩
  · intro h
    unfold handleAddTag
    rw [h]
    rfl
  · intro h
    unfold handleAddTag
    rw [h, Bool.not_true, Bool.and_false]
    rfl
  · intro h1 h2
    have hb : (jsTrim ti == "") = false := by simpa using h1
    unfold handleAddTag
    rw [hb, h2]
    rfl
  · by_cases h1 : jsTrim ti = ""
    · have e1 : handleAddTag ti fd = (fd, ti) := by
        unfold handleAddTag; rw [h1]; rfl
      simp only [e1]
    · have hb : (jsTrim ti == "") = false := by simpa using h1
      by_cases h2 : fd.tags.contains (jsToLower (jsTrim ti)) = true
      · have e1 : handleAddTag ti fd = (fd, ti) := by
          unfold handleAddTag; rw [h2, Bool.not_true, Bool.and_false]; rfl
        simp only [e1]
      · have h2' : fd.tags.contains (jsToLower (jsTrim ti)) = false := by
          simpa using h2
        have e1 : handleAddTag ti fd =
            ({ fd with tags := fd.tags ++ [jsToLower (jsTrim ti)] }, "") := by
          unfold handleAddTag; rw [hb, h2']; rfl
        have htags : ({ fd with
            tags := fd.tags ++ [jsToLower (jsTrim ti)] } : CreateBlogData).tags =
            fd.tags ++ [jsToLower (jsTrim ti)] := rfl
        have hmem : (fd.tags ++ [jsToLower (jsTrim ti)]).contains
            (jsToLower (jsTrim ti)) = true := by simp
        have e2 : handleAddTag ti
            ({ fd with tags := fd.tags ++ [jsToLower (jsTrim ti)] } : CreateBlogData) =
            (({ fd with tags := fd.tags ++ [jsToLower (jsTrim ti)] } : CreateBlogData),
              ti) := by
          unfold handleAddTag
          rw [htags, hmem, Bool.not_true, Bool.and_false]
          rfl
        simp only [e1, e2]

/-- Witness for C6: a fresh mixed-case padded tag is trimmed, lowercased
and appended, and the tag input is cleared. -/
theorem handleAddTag_witness :
    handleAddTag " Lean " emptyFormData =
      ({ emptyFormData with
          tags := emptyFormData.tags ++ [jsToLower (jsTrim " Lean ")] }, "") :=
  (handleAddTag_spec " Lean " emptyFormData).2.2.1 (by decide) (by decide)

/-- C9: when validation succeeds and the save callback rejects, the
rejection is absorbed inside `handleSubmit` (the outcome is the blocking
alert built from the rejection message), the draft record, staged file,
transient inputs and preview are exactly those of the pre-submit state,
and the resulting state is identical to the one a successful save would
leave, so the failure clears nothing and the user can retry. -/
theorem handleSubmit_saveFailure_spec (b? : Option Blog) (st : FormState)
    (sv : CreateBlogData → Option FileRef → Except String Unit) (msg : String)
    (hv : validateForm st.formData st.featuredImageFile b? = [])
    (hf : ∀ d f, sv d f = Except.error msg) :
    ((handleSubmit false b? st sv).1.formData = st.formData ∧
     (handleSubmit false b? st sv).1.featuredImageFile = st.featuredImageFile ∧
     (handleSubmit false b? st sv).1.tagInput = st.tagInput ∧
     (handleSubmit false b? st sv).1.imageInput = st.imageInput ∧
     (handleSubmit false b? st sv).1.featuredImagePreview =
       st.featuredImagePreview) ∧
    (handleSubmit false b? st sv).2.1 =
      SubmitOutcome.saveFailedAlert ("Error saving blog: " ++ msg) ∧
    (∀ sv', (handleSubmit false b? st sv').1 = (handleSubmit false b? st sv).1) := by
  refine ⟨?_, ?_, ?_⟩
  · rw [handleSubmit_state_eq]
    exact ⟨rfl, rfl, rfl, rfl, rfl⟩
  · simp only [handleSubmit, Bool.false_eq_true, if_false, hv, List.length_nil]
    rw [hf]
    rfl
  · intro sv'
    rw [handleSubmit_state_eq, handleSubmit_state_eq]

/-- Witness for C9: the concrete valid draft submitted through an
always-rejecting callback yields the caught-alert outcome. -/
theorem handleSubmit_saveFailure_witness :
    (handleSubmit false none validSample boomSave).2.1 =
      SubmitOutcome.saveFailedAlert ("Error saving blog: " ++ "boom") :=
  (handleSubmit_saveFailure_spec none validSample boomSave "boom" (by decide)
    (fun _ _ => rfl)).2.1

lemma ctrl_deleted_inv :
    ∀ (evs : List CtrlEvent) (s : ControllerState) (i : String),
      i ∈ (evs.foldl ctrlStep s).deletedCalls →
      i ∈ s.deletedCalls ∨ s.showDeleteConfirm = some i ∨
        CtrlEvent.requestDelete i ∈ evs := by
  intro evs
  induction evs with
  | nil =>
    intro s i h
    exact Or.inl h
  | cons e rest ih =>
    intro s i h
    have h' := ih (ctrlStep s e) i h
    cases e with
    | requestDelete j =>
      rcases h' with h1 | h1 | h1
      · exact Or.inl h1
      · have hj : j = i := by simpa [ctrlStep] using h1
        subst hj
        exact Or.inr (Or.inr (List.mem_cons_self _ _))
      · exact Or.inr (Or.inr (List.mem_cons_of_mem _ h1))
    | cancelDelete =>
      rcases h' with h1 | h1 | h1
      · exact Or.inl h1
      · simp [ctrlStep] at h1
      · exact Or.inr (Or.inr (List.mem_cons_of_mem _ h1))
    | confirmDelete ok =>
      cases hc : s.showDeleteConfirm with
      | none =>
        rw [show ctrlStep s (CtrlEvent.confirmDelete ok) = s by
          simp [ctrlStep, hc]] at h'
        rcases h' with h1 | h1 | h1
        · exact Or.inl h1
        · rw [hc] at h1
          exact absurd h1 (by simp)
        · exact Or.inr (Or.inr (List.mem_cons_of_mem _ h1))
      | some j =>
        rcases h' with h1 | h1 | h1
        · have h1' : i ∈ s.deletedCalls ++ [j] := by
            simpa [ctrlStep, hc] using h1
          rcases List.mem_append.mp h1' with h2 | h2
          · exact Or.inl h2
          · have hj : i = j := by simpa using h2
            subst hj
            exact Or.inr (Or.inl rfl)
        · have hj : j = i := by
            cases ok with
            | false => simpa [ctrlStep, hc] using h1
            | true => simp [ctrlStep, hc] at h1
          subst hj
          exact Or.inr (Or.inl rfl)
        · exact Or.inr (Or.inr (List.mem_cons_of_mem _ h1))
    | otherInteraction =>
      rcases h' with h1 | h1 | h1
      · exact Or.inl h1
      · exact Or.inr (Or.inl h1)
      · exact Or.inr (Or.inr (List.mem_cons_of_mem _ h1))

/-- C7: through the controller's public control flow, the service delete
call fires only for identifiers that were first placed in the
confirmation-held state — every identifier in the delete-call log of any
event sequence run from the initial state was the subject of an earlier
confirmation request. -/
theorem deleteCall_requires_confirmRequest (evs : List CtrlEvent) (i : String)
    (h : i ∈ (runCtrl evs).deletedCalls) :
    CtrlEvent.requestDelete i ∈ evs := by
  rcases ctrl_deleted_inv evs initCtrl i h with h1 | h1 | h1
  · simp [initCtrl] at h1
  · simp [initCtrl] at h1
  · exact h1

/-- Witness for C7: requesting confirmation for `x` and then confirming
produces a delete call for `x`, and the theorem recovers the request. -/
theorem deleteCall_requires_confirmRequest_witness :
    CtrlEvent.requestDelete "x" ∈
      [CtrlEvent.requestDelete "x", CtrlEvent.confirmDelete true] :=
  deleteCall_requires_confirmRequest
    [CtrlEvent.requestDelete "x", CtrlEvent.confirmDelete true] "x" (by decide)

lemma lookupEntry_map_self (k v : String) :
    ∀ es : List (String × String), es.any (fun p => decide (p.1 = k)) = true →
      lookupEntry k (es.map (fun p => if p.1 = k then (k, v) else p)) = some v := by
  intro es
  induction es with
  | nil => intro h; simp at h
  | cons p ps ih =>
    intro h
    rcases p with ⟨k1, v1⟩
    by_cases hk : k1 = k
    · simp only [List.map_cons]
      rw [if_pos hk]
      simp only [lookupEntry]
      simp
    · have h' : ps.any (fun p => decide (p.1 = k)) = true := by
        simpa [hk] using h
      simp only [List.map_cons]
      rw [if_neg hk]
      simp only [lookupEntry]
      rw [if_neg hk]
      exact ih h'

lemma lookupEntry_map_ne (k k' v : String) (hne : k' ≠ k) :
    ∀ es : List (String × String),
      lookupEntry k' (es.map (fun p => if p.1 = k then (k, v) else p)) =
        lookupEntry k' es := by
  intro es
  induction es with
  | nil => rfl
  | cons p ps ih =>
    rcases p with ⟨k1, v1⟩
    by_cases hk : k1 = k
    · simp only [List.map_cons]
      rw [if_pos hk]
      simp only [lookupEntry]
      rw [if_neg (fun hh : k = k' => hne hh.symm),
        if_neg (fun hh : k1 = k' => hne (hk ▸ hh).symm)]
      exact ih
    · simp only [List.map_cons]
      rw [if_neg hk]
      simp only [lookupEntry]
      by_cases hk' : k1 = k'
      · rw [if_pos hk', if_pos hk']
      · rw [if_neg hk', if_neg hk']
        exact ih

lemma lookupEntry_append_self (k v : String) :
    ∀ es : List (String × String), es.any (fun p => decide (p.1 = k)) = false →
      lookupEntry k (es ++ [(k, v)]) = some v := by
  intro es
  induction es with
  | nil => intro h; simp [lookupEntry]
  | cons p ps ih =>
    intro h
    rcases p with ⟨k1, v1⟩
    have hk : ¬k1 = k := by
      intro hc
      simp [hc] at h
    have h' : ps.any (fun p => decide (p.1 = k)) = false := by
      rcases List.any_eq_false.mp h with -
      rw [List.any_eq_false]
      intro x hx
      have := List.any_eq_false.mp h x (List.mem_cons_of_mem _ hx)
      simpa using this
    rw [List.cons_append]
    simp only [lookupEntry]
    rw [if_neg hk]
    exact ih h'

lemma lookupEntry_append_ne (k k' v : String) (hne : k' ≠ k) :
    ∀ es : List (String × String),
      lookupEntry k' (es ++ [(k, v)]) = lookupEntry k' es := by
  intro es
  induction es with
  | nil =>
    simp only [List.nil_append, lookupEntry]
    rw [if_neg (fun hh : k = k' => hne hh.symm)]
  | cons p ps ih =>
    rcases p with ⟨k1, v1⟩
    rw [List.cons_append]
    simp only [lookupEntry]
    by_cases hk' : k1 = k'
    · rw [if_pos hk', if_pos hk']
    · rw [if_neg hk', if_neg hk']
      exact ih

lemma lookupEntry_setEntry_self (k v : String) (es : List (String × String)) :
    lookupEntry k (setEntry k v es) = some v := by
  unfold setEntry
  by_cases ha : es.any (fun p => decide (p.1 = k)) = true
  · rw [if_pos ha]
    exact lookupEntry_map_self k v es ha
  · rw [if_neg ha]
    exact lookupEntry_append_self k v es (Bool.eq_false_iff.mpr ha)

lemma lookupEntry_setEntry_ne (k k' v : String) (hne : k' ≠ k)
    (es : List (String × String)) :
    lookupEntry k' (setEntry k v es) = lookupEntry k' es := by
  unfold setEntry
  by_cases ha : es.any (fun p => decide (p.1 = k)) = true
  · rw [if_pos ha]
    exact lookupEntry_map_ne k k' v hne es
  · rw [if_neg ha]
    exact lookupEntry_append_ne k k' v hne es

/-- C8: the request interceptor returns the configuration unchanged when
no token is stored; with a stored token it sets the `Authorization` header
to `Bearer <token>` — through the appropriate mutation path for either
header-container shape — while every other header and the rest of the
configuration are unchanged. -/
theorem requestInterceptor_spec (token : Option String) (c : RequestConfig) :
    (token = none → requestInterceptor token c = c) ∧
    (∀ t, token = some t →
      getHeader (requestInterceptor token c) "Authorization" =
        some ("Bearer " ++ t) ∧
      (∀ k, k ≠ "Authorization" →
        getHeader (requestInterceptor token c) k = getHeader c k) ∧
      (requestInterceptor token c).url = c.url) := by
  constructor
  · intro h
    subst h
    rfl
  · intro t h
    subst h
    rcases c with ⟨url, headers⟩
    cases headers with
    | none =>
      refine ⟨?_, ?_, rfl⟩
      · exact lookupEntry_setEntry_self "Authorization" ("Bearer " ++ t) []
      · intro k hk
        simp only [requestInterceptor, getHeader, HeaderBag.entries]
        exact lookupEntry_setEntry_ne "Authorization" k ("Bearer " ++ t) hk []
    | some bag =>
      cases bag with
      | axiosHeaders es =>
        refine ⟨?_, ?_, rfl⟩
        · exact lookupEntry_setEntry_self "Authorization" ("Bearer " ++ t) es
        · intro k hk
          simp only [requestInterceptor, getHeader, HeaderBag.entries]
          exact lookupEntry_setEntry_ne "Authorization" k ("Bearer " ++ t) hk es
      | plainMap es =>
        refine ⟨?_, ?_, rfl⟩
        · exact lookupEntry_setEntry_self "Authorization" ("Bearer " ++ t) es
        · intro k hk
          simp only [requestInterceptor, getHeader, HeaderBag.entries]
          exact lookupEntry_setEntry_ne "Authorization" k ("Bearer " ++ t) hk es

/-- Witness for C8: with a stored token, a request that already carries a
content-type header gains the bearer header and keeps the other one. -/
theorem requestInterceptor_witness :
    getHeader
      (requestInterceptor (some "tok")
        { url := "/api/blogs",
          headers := some (HeaderBag.plainMap
            [("Content-Type", "application/json")]) }) "Authorization" =
      some ("Bearer " ++ "tok") :=
  ((requestInterceptor_spec (some "tok")
    { url := "/api/blogs",
      headers := some (HeaderBag.plainMap
        [("Content-Type", "application/json")]) }).2 "tok" rfl).1

lemma filterIdx_of_lt :
    ∀ (l : List BlogImage) (target j : Nat), target < j →
      filterIdx target j l = l := by
  intro l
  induction l with
  | nil => intro target j h; rfl
  | cons x xs ih =>
    intro target j h
    unfold filterIdx
    rw [if_neg (by omega)]
    rw [ih target (j + 1) (by omega)]

lemma filterIdx_eraseIdx :
    ∀ (l : List BlogImage) (j i : Nat), filterIdx (j + i) j l = l.eraseIdx i := by
  intro l
  induction l with
  | nil => intro j i; rfl
  | cons x xs ih =>
    intro j i
    cases i with
    | zero =>
      unfold filterIdx
      rw [if_pos (by omega)]
      rw [filterIdx_of_lt xs (j + 0) (j + 1) (by omega)]
      rfl
    | succ i' =>
      unfold filterIdx
      rw [if_neg (by omega)]
      rw [show j + (i' + 1) = (j + 1) + i' by omega]
      rw [ih (j + 1) i']
      rfl

/-- C10: removing the image at an index keeps every other entry (all
fields, `order` included) and every other draft field unchanged; an
addition with a non-empty URL appends an entry whose `order` is the
current list length; consequently, after removing index 0 from a
two-image list and adding a new image, the `order` values are `[1, 1]` —
neither unique nor contiguous. -/
theorem imageEdit_frame_spec (fd : CreateBlogData) (i : Nat)
    (input : ImageInput) :
    ((handleRemoveImage i fd).images = fd.images.eraseIdx i ∧
     (handleRemoveImage i fd).title = fd.title ∧
     (handleRemoveImage i fd).tags = fd.tags ∧
     (handleRemoveImage i fd).featuredImage = fd.featuredImage ∧
     (handleRemoveImage i fd).slug = fd.slug) ∧
    (jsTrim input.url ≠ "" →
      (handleAddImage input fd).1.images =
        fd.images ++
          [{ url := jsTrim input.url, alt := jsTrim input.alt,
             caption := jsTrim input.caption, order := fd.images.length }]) ∧
    ((handleAddImage { url := "u2", alt := "", caption := "" }
        (handleRemoveImage 0
          { emptyFormData with
            images := [{ url := "a", alt := "", caption := "", order := 0 },
                       { url := "b", alt := "", caption := "", order := 1 }]
          })).1.images.map BlogImage.order) = [1, 1] := by
  refine ⟨⟨?_, rfl, rfl, rfl, rfl⟩, ?_, by decide⟩
  · show filterIdx i 0 fd.images = fd.images.eraseIdx i
    have h := filterIdx_eraseIdx fd.images 0 i
    rwa [Nat.zero_add] at h
  · intro h
    have hb : (jsTrim input.url == "") = false := by simpa using h
    unfold handleAddImage
    rw [hb]
    rfl

/-- Witness for C10: adding a first image to the empty draft appends it
with order 0. -/
theorem imageEdit_frame_witness :
    (handleAddImage { url := "x", alt := "", caption := "" }
        emptyFormData).1.images =
      emptyFormData.images ++
        [{ url := jsTrim "x", alt := jsTrim "", caption := jsTrim "",
           order := emptyFormData.images.length }] :=
  (imageEdit_frame_spec emptyFormData 0
    { url := "x", alt := "", caption := "" }).2.1 (by decide)

end CbmAdmin
